import Mathlib

/-!
Inventory and equip bookkeeping of `APangeaMechanicsCharacter`

A shallow embedding of the inventory part of `PangeaMechanicsCharacter.cpp`
(`IsInventorySlotEmpty`, `ShowInventory`, `BeginPickup`, `EndPickup`, `Drop`,
`ChangeActiveSlot`, `Use`, `ItemInfo`) as state-passing functions.

* A pointer `AItem*` is `Option Item`: `none` is `nullptr`, and an `Item` value
  stands for the identity of one item actor together with the data of it that
  never changes (its display name and whether its dynamic class is
  `AWeaponItem`).
* `StaticInventory[9]` is a function on `Fin 9`; an access outside the array is
  undefined behaviour in C++ and makes the embedded operation return `none`.
* The engine side (per-actor flags, on-screen messages) is an explicit part of
  the state; every call made on an item is also appended to a call log, so that
  the order of the calls can be stated.
* `float Value` is only ever compared with `0`; it is embedded as an integer
  (a NaN would take the same path as `0`: both comparisons are false).
-/

namespace APangeaMechanicsCharacter

/-! ## Data model -/

/-- An item actor as seen through an `AItem*`: its identity, its `name` and whether its
dynamic class is `AWeaponItem`. -/
structure Item where
  id : Nat
  name : String
  isWeapon : Bool
deriving DecidableEq

/-- Engine vector; the coordinates are integers here (rounding is not modelled). -/
structure FVector where
  X : Int
  Y : Int
  Z : Int
deriving DecidableEq

/-- Colours used for on-screen messages. -/
inductive FColor where
  | Blue
  | Green
  | Red
deriving DecidableEq

/-- One call of `GEngine->AddOnScreenDebugMessage(Key, TimeToDisplay, DisplayColor, DebugMessage)`. -/
structure ScreenMessage where
  Key : Int
  TimeToDisplay : Nat
  DisplayColor : FColor
  DebugMessage : String
deriving DecidableEq

/-- The calls the character makes on item actors. -/
inductive ItemCall where
  | DisableActor (it : Item) (toHide : Bool)
  | SetActorLocation (it : Item) (loc : FVector)
  | DetachFromActor (it : Item)
  | AttachToComponent (it : Item) (socket : String)
  | SetSimulatePhysics (it : Item) (b : Bool)
  | Use (it : Item)
  | Info (it : Item)
deriving DecidableEq

/-- Engine-side state of one item actor. -/
structure ActorState where
  disabled : Bool
  attachedTo : Option String
  simulatePhysics : Bool
  location : FVector
deriving DecidableEq

/-- Engine-side state of all item actors. -/
abbrev World := Item → ActorState

/-- The virtual `AItem::Use()` and `AItem::Info()`; their bodies (`Item.cpp`, `WeaponItem.cpp`) are
not part of the character, so they are parameters: each is an arbitrary transformation of the
item actors. -/
structure ItemBehaviour where
  Use : Item → World → World
  Info : Item → World → World

/-- The character: the members `StaticInventory`, `equippedItem`, `activeSlot`, `isPickingUp`,
what the engine answers to `GetActorLocation()` and `GetActorForwardVector()`, the item actors,
and the two logs (on-screen messages and calls on items, oldest first). -/
structure State where
  StaticInventory : Fin 9 → Option Item
  equippedItem : Option Item
  activeSlot : Int
  isPickingUp : Bool
  ActorLocation : FVector
  ActorForwardVector : FVector
  actors : World
  screen : List ScreenMessage
  calls : List ItemCall

/-- The constant of `#define MAX_INVENTORY_ITEMS 4`. -/
def MAX_INVENTORY_ITEMS : Int := 4

/-- The indices visited by `for (int i = 0; i < MAX_INVENTORY_ITEMS; i++)`; all lie inside the
array of 9. -/
def loopIndices : List (Fin 9) := [0, 1, 2, 3]

/-- Reading `StaticInventory[i]` with an `int` index: `none` when the index is outside the array. -/
def State.slot (s : State) (i : Int) : Option (Option Item) :=
  if h : 0 ≤ i ∧ i < 9 then some (s.StaticInventory ⟨i.toNat, by omega⟩) else none

/-- Writing `StaticInventory[i] = p` with an `int` index: `none` when the index is outside the array. -/
def State.setSlot (s : State) (i : Int) (p : Option Item) : Option State :=
  if h : 0 ≤ i ∧ i < 9 then
    some { s with StaticInventory := fun j => if j = ⟨i.toNat, by omega⟩ then p else s.StaticInventory j }
  else none

/-- The engine cast `Cast<AWeaponItem>(p)`: `p` itself when it points to a weapon item, `nullptr` otherwise. -/
def Cast_AWeaponItem (p : Option Item) : Option Item :=
  match p with
  | some it => if it.isWeapon then some it else none
  | none => none

/-- Vector sum. -/
def FVector.add (a b : FVector) : FVector := ⟨a.X + b.X, a.Y + b.Y, a.Z + b.Z⟩

/-- Vector scaled by a number. -/
def FVector.scale (a : FVector) (k : Int) : FVector := ⟨a.X * k, a.Y * k, a.Z * k⟩

/-! ## Engine calls -/

/-- Change the engine-side state of one actor. -/
def updateActor (w : World) (it : Item) (f : ActorState → ActorState) : World :=
  fun x => if x = it then f (w x) else w x

/-- The call `GEngine->AddOnScreenDebugMessage(...)`. -/
def State.AddOnScreenDebugMessage (s : State) (Key : Int) (TimeToDisplay : Nat) (c : FColor)
    (msg : String) : State :=
  { s with screen := s.screen ++ [⟨Key, TimeToDisplay, c, msg⟩] }

/-- Modelled from the spec: `AItem::DisableActor(bool)` is declared in `Item.h`, which is not among
the sources; the spec describes it as the item's "disable/enable-actor operation (toggling
simulation/visibility)". It sets the actor's disabled flag to its argument and touches neither
the attachment nor the physics flag of the item's box component. -/
def State.DisableActor (s : State) (it : Item) (toHide : Bool) : State :=
  { s with
    actors := updateActor s.actors it (fun a => { a with disabled := toHide })
    calls := s.calls ++ [ItemCall.DisableActor it toHide] }

/-- The call `it->SetActorLocation(loc)`. -/
def State.SetActorLocation (s : State) (it : Item) (loc : FVector) : State :=
  { s with
    actors := updateActor s.actors it (fun a => { a with location := loc })
    calls := s.calls ++ [ItemCall.SetActorLocation it loc] }

/-- The call `it->DetachFromActor(FDetachmentTransformRules::KeepWorldTransform)`. -/
def State.DetachFromActor (s : State) (it : Item) : State :=
  { s with
    actors := updateActor s.actors it (fun a => { a with attachedTo := none })
    calls := s.calls ++ [ItemCall.DetachFromActor it] }

/-- The call `it->AttachToComponent(GetMesh(), SnapToTargetNotIncludingScale, FName(socket))`. -/
def State.AttachToComponent (s : State) (it : Item) (socket : String) : State :=
  { s with
    actors := updateActor s.actors it (fun a => { a with attachedTo := some socket })
    calls := s.calls ++ [ItemCall.AttachToComponent it socket] }

/-- The call `it->SM_TBox->SetSimulatePhysics(b)`. -/
def State.SetSimulatePhysics (s : State) (it : Item) (b : Bool) : State :=
  { s with
    actors := updateActor s.actors it (fun a => { a with simulatePhysics := b })
    calls := s.calls ++ [ItemCall.SetSimulatePhysics it b] }

/-- The call `it->Use()`. -/
def State.callUse (B : ItemBehaviour) (s : State) (it : Item) : State :=
  { s with actors := B.Use it s.actors, calls := s.calls ++ [ItemCall.Use it] }

/-- The call `it->Info()`. -/
def State.callInfo (B : ItemBehaviour) (s : State) (it : Item) : State :=
  { s with actors := B.Info it s.actors, calls := s.calls ++ [ItemCall.Info it] }

/-! ## The operations -/

/-- Source function `bool IsInventorySlotEmpty(int &slot)`: the result is the returned flag and the final value of
the reference argument, together with the character after the call. -/
def IsInventorySlotEmpty (slot : Int) (s : State) : (Bool × Int) × State :=
  (loopIndices.foldl
    (fun (acc : Bool × Int) (i : Fin 9) =>
      if !acc.1 && (s.StaticInventory i).isNone then (true, ((i : Nat) : Int)) else acc)
    (false, slot), s)

/-- Source function `void ShowInventory()`. -/
def ShowInventory (s : State) : State :=
  (loopIndices.foldl
    (fun (t : State) (i : Fin 9) =>
      match t.StaticInventory i with
      | some it => t.AddOnScreenDebugMessage (-1) 5 FColor.Blue ("Item: " ++ it.name)
      | none => t.AddOnScreenDebugMessage (-1) 5 FColor.Blue "Item: None")
    s).AddOnScreenDebugMessage (-1) 5 FColor.Blue "INVENTORY"

/-- Source function `void BeginPickup()`. -/
def BeginPickup (s : State) : State := { s with isPickingUp := true }

/-- Source function `void EndPickup()`. -/
def EndPickup (s : State) : State := { s with isPickingUp := false }

/-- Source function `void Drop()`. -/
def Drop (s : State) : Option State :=
  let locToSpawn := (s.ActorLocation.add (s.ActorForwardVector.scale 150)).add ⟨0, 0, 50⟩
  match s.slot s.activeSlot with
  | none => none
  | some (some it) =>
    ((s.DisableActor it false).SetActorLocation it locToSpawn).setSlot s.activeSlot none
  | some none =>
    some (s.AddOnScreenDebugMessage (-1) 5 FColor.Red "There is nothing here...")

/-- The two "Prints" blocks of `ChangeActiveSlot`: the active item's name (or `None`), then the
active slot number. -/
def printActiveItem (s : State) : Option State :=
  match s.slot s.activeSlot with
  | none => none
  | some (some it) =>
    some ((s.AddOnScreenDebugMessage (-1) 5 FColor.Green ("Active Item: " ++ it.name)).AddOnScreenDebugMessage
      (-1) 5 FColor.Green (toString s.activeSlot))
  | some none =>
    some ((s.AddOnScreenDebugMessage (-1) 5 FColor.Green "Active Item: None").AddOnScreenDebugMessage
      (-1) 5 FColor.Green (toString s.activeSlot))

/-- First half of `ChangeActiveSlot` (the `Value < 0` / `Value > 0` branches): the cursor update
and its prints. -/
def moveCursor (Value : Int) (s : State) : Option State :=
  if Value < 0 then
    printActiveItem
      { s with activeSlot := if s.activeSlot ≤ 0 then MAX_INVENTORY_ITEMS - 1 else s.activeSlot - 1 }
  else if Value > 0 then
    printActiveItem
      { s with activeSlot := if s.activeSlot ≥ MAX_INVENTORY_ITEMS - 1 then 0 else s.activeSlot + 1 }
  else some s

/-- Second half of `ChangeActiveSlot` (the `EQUIP ITEM` block). -/
def equipActiveSlot (s : State) : Option State :=
  match s.slot s.activeSlot with
  | none => none
  | some cur =>
    match Cast_AWeaponItem cur with
    | some w =>
      let s1 :=
        match s.equippedItem with
        | some e => (s.DisableActor e true).DetachFromActor e
        | none => s
      let s2 := { s1 with equippedItem := cur }
      some (((s2.AttachToComponent w "socketWeapon").DisableActor w false).SetSimulatePhysics w false)
    | none =>
      match s.equippedItem with
      | some e => some { (s.DisableActor e true).DetachFromActor e with equippedItem := none }
      | none => some s

/-- Source function `void ChangeActiveSlot(float Value)`. -/
def ChangeActiveSlot (Value : Int) (s : State) : Option State :=
  (moveCursor Value s).bind equipActiveSlot

/-- Source function `void Use()`. -/
def Use (B : ItemBehaviour) (s : State) : Option State :=
  match s.slot s.activeSlot with
  | none => none
  | some (some it) => (s.callUse B it).setSlot s.activeSlot none
  | some none =>
    some (s.AddOnScreenDebugMessage (-1) 5 FColor.Red "You don't have any active item!")

/-- Source function `void ItemInfo()`. -/
def ItemInfo (B : ItemBehaviour) (s : State) : Option State :=
  match s.slot s.activeSlot with
  | none => none
  | some (some it) => some (s.callInfo B it)
  | some none =>
    some (s.AddOnScreenDebugMessage (-1) 5 FColor.Red "You don't have any active item!")

/-! ## Sequences of operations -/

/-- The input handlers bound in `SetupPlayerInputComponent` that touch the inventory. -/
inductive Op where
  | ChangeActiveSlot (Value : Int)
  | Drop
  | Use
  | ItemInfo
  | ShowInventory
  | BeginPickup
  | EndPickup
deriving DecidableEq

/-- One handler call. -/
def step (B : ItemBehaviour) (op : Op) (s : State) : Option State :=
  match op with
  | Op.ChangeActiveSlot v => ChangeActiveSlot v s
  | Op.Drop => Drop s
  | Op.Use => Use B s
  | Op.ItemInfo => ItemInfo B s
  | Op.ShowInventory => some (ShowInventory s)
  | Op.BeginPickup => some (BeginPickup s)
  | Op.EndPickup => some (EndPickup s)

/-- A sequence of handler calls, first call first. -/
def run (B : ItemBehaviour) : List Op → State → Option State
  | [], s => some s
  | op :: ops, s => (step B op s).bind (run B ops)

/-- A sequence of `ChangeActiveSlot` calls, first call first. -/
def changeSlots : List Int → State → Option State
  | [], s => some s
  | v :: vs, s => (ChangeActiveSlot v s).bind (changeSlots vs)

/-- The character as constructed: the in-class initialisers `equippedItem = nullptr`,
`activeSlot = 0`, `isPickingUp = false`, every slot of the zero-filled `StaticInventory` empty,
and nothing logged yet. -/
def initialState (w : World) (loc fwd : FVector) : State :=
  { StaticInventory := fun _ => none
    equippedItem := none
    activeSlot := 0
    isPickingUp := false
    ActorLocation := loc
    ActorForwardVector := fwd
    actors := w
    screen := []
    calls := [] }

/-! ## Concrete items and states -/

/-- A non-weapon item. -/
def itemA : Item := ⟨1, "Apple", false⟩

/-- A weapon item. -/
def itemW : Item := ⟨2, "Sword", true⟩

/-- A second weapon item. -/
def itemV : Item := ⟨3, "Axe", true⟩

/-- Every item lies in the world: enabled, attached to nothing, simulating physics. -/
def restWorld : World := fun _ => ⟨false, none, true, ⟨0, 0, 0⟩⟩

/-- Item behaviours that leave every actor as it is. -/
def idleBehaviour : ItemBehaviour := ⟨fun _ w => w, fun _ w => w⟩

/-- The state of the spec's example: slots `[A, empty, W, empty]` (the remaining five entries of
the array empty), cursor on slot 0, nothing equipped. -/
def exampleState : State :=
  { StaticInventory := fun i => if i = 0 then some itemA else if i = 2 then some itemW else none
    equippedItem := none
    activeSlot := 0
    isPickingUp := false
    ActorLocation := ⟨0, 0, 0⟩
    ActorForwardVector := ⟨1, 0, 0⟩
    actors := restWorld
    screen := []
    calls := [] }

/-- The example state with the cursor on the empty slot 1. -/
def emptySlotState : State := { exampleState with activeSlot := 1 }

/-- A state with the four usable slots occupied. -/
def fullState : State :=
  { exampleState with
    StaticInventory := fun i => if i = 2 then some itemW else if i = 3 then some itemV else some itemA }

/-- The example state once the cursor has moved from slot 1 onto slot 2 (which holds `W`) and
before the equip block has run: the two prints of the forward branch are on screen. -/
def cursorOnWeapon : State :=
  { emptySlotState with
    activeSlot := 2
    screen := [⟨-1, 5, FColor.Green, "Active Item: Sword"⟩, ⟨-1, 5, FColor.Green, "2"⟩] }

/-- The example state with the cursor on slot 2 and `W` equipped: attached to the weapon socket,
enabled, its physics off. -/
def armedState : State :=
  { exampleState with
    activeSlot := 2
    equippedItem := some itemW
    actors := fun x =>
      if x = itemW then ⟨false, some "socketWeapon", false, ⟨0, 0, 0⟩⟩ else restWorld x }

/-- The armed state once the cursor has moved from slot 2 onto the empty slot 3 and before the
equip block has run. -/
def cursorPastWeapon : State :=
  { armedState with
    activeSlot := 3
    screen := [⟨-1, 5, FColor.Green, "Active Item: None"⟩, ⟨-1, 5, FColor.Green, "3"⟩] }

/-! ## Predicates used in the statements -/

/-- The cursor arithmetic of `ChangeActiveSlot` on its own. -/
def nextCursor (Value a : Int) : Int :=
  if Value < 0 then (if a ≤ 0 then MAX_INVENTORY_ITEMS - 1 else a - 1)
  else if Value > 0 then (if a ≥ MAX_INVENTORY_ITEMS - 1 then 0 else a + 1)
  else a

/-- The equipped item is either empty, or it is the item in the active slot and a weapon. -/
def EquipInv (s : State) : Prop :=
  s.equippedItem = none ∨
    ∃ w, s.equippedItem = some w ∧ s.slot s.activeSlot = some (some w) ∧ w.isWeapon = true

/-- The items attached to the character are exactly the equipped item, if any. -/
def AttachInv (s : State) : Prop :=
  ∀ it, (s.actors it).attachedTo ≠ none ↔ s.equippedItem = some it

/-! ## Basic facts about the embedding -/

theorem slot_eq_some (s : State) (i : Int) (p : Option Item) (h : s.slot i = some p) :
    ∃ hi : 0 ≤ i ∧ i < 9, s.StaticInventory ⟨i.toNat, by omega⟩ = p := by
  unfold State.slot at h
  by_cases hi : 0 ≤ i ∧ i < 9
  · rw [dif_pos hi] at h
    exact ⟨hi, Option.some.inj h⟩
  · rw [dif_neg hi] at h
    exact absurd h (by simp)

theorem setSlot_eq (s : State) (i : Int) (p : Option Item) (hi : 0 ≤ i ∧ i < 9) :
    s.setSlot i p = some { s with
      StaticInventory := fun j => if j = ⟨i.toNat, by omega⟩ then p else s.StaticInventory j } := by
  unfold State.setSlot
  rw [dif_pos hi]

theorem nextCursor_range (Value a : Int) (h : 0 ≤ a ∧ a ≤ 3) :
    0 ≤ nextCursor Value a ∧ nextCursor Value a ≤ 3 := by
  unfold nextCursor MAX_INVENTORY_ITEMS
  split_ifs <;> omega

theorem printActiveItem_eq (s : State) (h : 0 ≤ s.activeSlot ∧ s.activeSlot < 9) :
    ∃ msgs, printActiveItem s = some { s with screen := s.screen ++ msgs } := by
  unfold printActiveItem
  simp only [State.slot, h, and_self, dite_true]
  split
  · simp_all
  · exact ⟨_, by simp [State.AddOnScreenDebugMessage, List.append_assoc]; rfl⟩
  · exact ⟨_, by simp [State.AddOnScreenDebugMessage, List.append_assoc]; rfl⟩

theorem moveCursor_eq (Value : Int) (s : State)
    (h : Value ≠ 0 → 0 ≤ nextCursor Value s.activeSlot ∧ nextCursor Value s.activeSlot < 9) :
    ∃ msgs, moveCursor Value s =
      some { s with activeSlot := nextCursor Value s.activeSlot, screen := s.screen ++ msgs } := by
  unfold moveCursor
  by_cases h1 : Value < 0
  · have hn : nextCursor Value s.activeSlot =
        (if s.activeSlot ≤ 0 then MAX_INVENTORY_ITEMS - 1 else s.activeSlot - 1) := by
      simp [nextCursor, h1]
    rw [if_pos h1, ← hn]
    exact printActiveItem_eq { s with activeSlot := nextCursor Value s.activeSlot } (h (by omega))
  · by_cases h2 : Value > 0
    · have hn : nextCursor Value s.activeSlot =
          (if s.activeSlot ≥ MAX_INVENTORY_ITEMS - 1 then 0 else s.activeSlot + 1) := by
        simp [nextCursor, h1, h2]
      rw [if_neg h1, if_pos h2, ← hn]
      exact printActiveItem_eq { s with activeSlot := nextCursor Value s.activeSlot } (h (by omega))
    · refine ⟨[], ?_⟩
      simp [h1, h2, nextCursor]

theorem printActiveItem_range (s t : State) (h : printActiveItem s = some t) :
    0 ≤ s.activeSlot ∧ s.activeSlot < 9 := by
  unfold printActiveItem at h
  cases hs : s.slot s.activeSlot with
  | none => rw [hs] at h; exact absurd h (by simp)
  | some p => exact (slot_eq_some s _ p hs).1

theorem moveCursor_some (Value : Int) (s t : State) (h : moveCursor Value s = some t) :
    ∃ msgs, t = { s with activeSlot := nextCursor Value s.activeSlot, screen := s.screen ++ msgs } := by
  have hr : Value ≠ 0 →
      0 ≤ nextCursor Value s.activeSlot ∧ nextCursor Value s.activeSlot < 9 := by
    intro hv
    unfold moveCursor at h
    by_cases h1 : Value < 0
    · rw [if_pos h1] at h
      have := printActiveItem_range _ _ h
      simpa [nextCursor, h1] using this
    · have h2 : Value > 0 := by omega
      rw [if_neg h1, if_pos h2] at h
      have := printActiveItem_range _ _ h
      simpa [nextCursor, h1, h2] using this
  obtain ⟨msgs, hm⟩ := moveCursor_eq Value s hr
  rw [hm] at h
  exact ⟨msgs, (Option.some.inj h).symm⟩

theorem Cast_AWeaponItem_eq_some (p : Option Item) (w : Item) :
    Cast_AWeaponItem p = some w ↔ p = some w ∧ w.isWeapon = true := by
  unfold Cast_AWeaponItem
  cases p with
  | none => simp
  | some it =>
    by_cases hi : it.isWeapon = true
    · simp only [hi, if_true, Option.some.injEq]
      constructor
      · intro h; subst h; exact ⟨rfl, hi⟩
      · intro h; exact h.1
    · simp only [hi, Option.some.injEq]
      constructor
      · intro h; simp at h
      · intro h; rw [h.1] at hi; exact absurd h.2 hi

theorem Cast_AWeaponItem_eq_none (p : Option Item) :
    Cast_AWeaponItem p = none ↔ ∀ w, p = some w → w.isWeapon = false := by
  unfold Cast_AWeaponItem
  cases p with
  | none => simp
  | some it => cases hi : it.isWeapon <;> simp [hi]

theorem equipActiveSlot_frame (t : State) (cur : Option Item)
    (ht : t.slot t.activeSlot = some cur) :
    ∃ t', equipActiveSlot t = some t' ∧ t'.StaticInventory = t.StaticInventory ∧
      t'.activeSlot = t.activeSlot ∧ t'.isPickingUp = t.isPickingUp ∧ t'.screen = t.screen ∧
      t'.equippedItem = Cast_AWeaponItem cur := by
  unfold equipActiveSlot
  simp only [ht]
  cases hc : Cast_AWeaponItem cur with
  | some w =>
    have hcw := (Cast_AWeaponItem_eq_some cur w).1 hc
    cases he : t.equippedItem <;> exact ⟨_, rfl, rfl, rfl, rfl, rfl, hcw.1⟩
  | none =>
    cases he : t.equippedItem with
    | none => exact ⟨_, rfl, rfl, rfl, rfl, rfl, he⟩
    | some e => exact ⟨_, rfl, rfl, rfl, rfl, rfl, rfl⟩

theorem ChangeActiveSlot_frame (Value : Int) (s : State)
    (h : 0 ≤ nextCursor Value s.activeSlot ∧ nextCursor Value s.activeSlot < 9) :
    ∃ s' cur, ChangeActiveSlot Value s = some s' ∧ s'.StaticInventory = s.StaticInventory ∧
      s'.activeSlot = nextCursor Value s.activeSlot ∧ s'.isPickingUp = s.isPickingUp ∧
      s'.slot s'.activeSlot = some cur ∧ s'.equippedItem = Cast_AWeaponItem cur := by
  obtain ⟨msgs, hm⟩ := moveCursor_eq Value s (fun _ => h)
  generalize hu : ({ s with activeSlot := nextCursor Value s.activeSlot, screen := s.screen ++ msgs } : State) = u at hm
  have hua : u.activeSlot = nextCursor Value s.activeSlot := by rw [← hu]
  have hui : u.StaticInventory = s.StaticInventory := by rw [← hu]
  have hup : u.isPickingUp = s.isPickingUp := by rw [← hu]
  have hslot : ∃ cur, u.slot u.activeSlot = some cur := by
    simp [State.slot, hua, h]
  obtain ⟨cur, hcur⟩ := hslot
  obtain ⟨t', ht', hinv, hact, hpick, _, heq⟩ := equipActiveSlot_frame _ cur hcur
  refine ⟨t', cur, ?_, hinv.trans hui, hact.trans hua, hpick.trans hup, ?_, heq⟩
  · simp [ChangeActiveSlot, hm, ht']
  · rw [hact]
    simp only [State.slot, hinv] at hcur ⊢
    exact hcur

/-! ## C1: the equipping invariant after `ChangeActiveSlot` -/

/-- C1. From every state whose active slot index is in `[0, 3]` and for every input value,
`ChangeActiveSlot` returns, and afterwards the equipped item is non-empty if and only if the new
active slot holds a weapon-type item; when it is non-empty it is the item held in that slot. -/
theorem ChangeActiveSlot_equipped_iff (Value : Int) (s : State)
    (h : 0 ≤ s.activeSlot ∧ s.activeSlot ≤ 3) :
    ∃ s', ChangeActiveSlot Value s = some s' ∧
      (s'.equippedItem ≠ none ↔
        ∃ w, s'.slot s'.activeSlot = some (some w) ∧ w.isWeapon = true) ∧
      (∀ e, s'.equippedItem = some e → s'.slot s'.activeSlot = some (some e)) := by
  have hr := nextCursor_range Value s.activeSlot h
  obtain ⟨s', cur, hs', _, _, _, hslot, heq⟩ :=
    ChangeActiveSlot_frame Value s ⟨hr.1, by omega⟩
  refine ⟨s', hs', ?_, ?_⟩
  · rw [heq, hslot]
    constructor
    · intro hne
      cases hc : Cast_AWeaponItem cur with
      | none => exact absurd hc hne
      | some w =>
        have := (Cast_AWeaponItem_eq_some cur w).1 hc
        exact ⟨w, by rw [this.1], this.2⟩
    · rintro ⟨w, hw, hww⟩
      have hcw : cur = some w := by simpa using hw
      rw [(Cast_AWeaponItem_eq_some cur w).2 ⟨hcw, hww⟩]
      simp
  · intro e he
    rw [heq] at he
    rw [hslot, ((Cast_AWeaponItem_eq_some cur e).1 he).1]

/-- Witness of C1: from the example state, one step forward lands on the empty slot 1. -/
theorem ChangeActiveSlot_equipped_iff_witness :
    (0 ≤ exampleState.activeSlot ∧ exampleState.activeSlot ≤ 3) ∧
    ∃ s', ChangeActiveSlot 1 exampleState = some s' ∧
      (s'.equippedItem ≠ none ↔
        ∃ w, s'.slot s'.activeSlot = some (some w) ∧ w.isWeapon = true) ∧
      (∀ e, s'.equippedItem = some e → s'.slot s'.activeSlot = some (some e)) :=
  ⟨by decide, ChangeActiveSlot_equipped_iff 1 exampleState (by decide)⟩

/-! ## C4: the cursor stays in range and wraps -/

theorem changeSlots_cursor (vs : List Int) :
    ∀ s : State, 0 ≤ s.activeSlot ∧ s.activeSlot ≤ 3 →
      ∃ s', changeSlots vs s = some s' ∧ (0 ≤ s'.activeSlot ∧ s'.activeSlot ≤ 3) ∧
        s'.activeSlot =
          (s.activeSlot + (vs.countP (fun v => decide (0 < v)) : Int)
            - (vs.countP (fun v => decide (v < 0)) : Int)) % 4 := by
  induction vs with
  | nil =>
    intro s h
    refine ⟨s, rfl, h, ?_⟩
    simp only [List.countP_nil, Nat.cast_zero]
    omega
  | cons v vs ih =>
    intro s h
    have hr := nextCursor_range v s.activeSlot h
    obtain ⟨t, _, ht, _, hta, _, _, _⟩ := ChangeActiveSlot_frame v s ⟨hr.1, by omega⟩
    obtain ⟨s', hs', hrange, hval⟩ := ih t (by rw [hta]; exact hr)
    refine ⟨s', by simp [changeSlots, ht, hs'], hrange, ?_⟩
    rw [hval, hta]
    simp only [List.countP_cons, Nat.cast_add]
    unfold nextCursor MAX_INVENTORY_ITEMS
    by_cases h1 : v < 0
    · have h2 : ¬ 0 < v := by omega
      simp only [h1, h2, decide_True, decide_False, if_true, Bool.false_eq_true, if_false,
        Nat.cast_zero, Nat.cast_one]
      split_ifs <;> omega
    · by_cases h2 : 0 < v
      · simp only [h1, h2, decide_True, decide_False, if_true, Bool.false_eq_true, if_false,
          Nat.cast_zero, Nat.cast_one, gt_iff_lt]
        split_ifs <;> omega
      · simp only [h1, h2, decide_True, decide_False, if_true, Bool.false_eq_true, if_false,
          Nat.cast_zero, Nat.cast_one, gt_iff_lt]
        omega

/-- C4. With `N = MAX_INVENTORY_ITEMS = 4`: from every state whose active slot `a` is in
`[0, N-1]` and for every finite sequence of `ChangeActiveSlot` values (non-zero or not), every
initial part of the sequence runs to a state whose active slot is in `[0, N-1]`, and the whole
sequence ends with active slot `(a + p - q) mod N`, where `p` counts the positive and `q` the
negative values; a positive step from `N-1` gives `0` and a negative step from `0` gives `N-1`. -/
theorem changeSlots_activeSlot (s : State) (vs : List Int)
    (ha : 0 ≤ s.activeSlot ∧ s.activeSlot ≤ MAX_INVENTORY_ITEMS - 1) :
    (∀ k, k ≤ vs.length → ∃ t, changeSlots (vs.take k) s = some t ∧
        0 ≤ t.activeSlot ∧ t.activeSlot ≤ MAX_INVENTORY_ITEMS - 1) ∧
    (∃ s', changeSlots vs s = some s' ∧
        s'.activeSlot =
          (s.activeSlot + (vs.countP (fun v => decide (0 < v)) : Int)
            - (vs.countP (fun v => decide (v < 0)) : Int)) % MAX_INVENTORY_ITEMS) ∧
    (∀ v : Int, 0 < v → s.activeSlot = MAX_INVENTORY_ITEMS - 1 →
        ∃ t, ChangeActiveSlot v s = some t ∧ t.activeSlot = 0) ∧
    (∀ v : Int, v < 0 → s.activeSlot = 0 →
        ∃ t, ChangeActiveSlot v s = some t ∧ t.activeSlot = MAX_INVENTORY_ITEMS - 1) := by
  have ha3 : 0 ≤ s.activeSlot ∧ s.activeSlot ≤ 3 := by
    unfold MAX_INVENTORY_ITEMS at ha; omega
  refine ⟨?_, ?_, ?_, ?_⟩
  · intro k _
    obtain ⟨t, ht, hr, _⟩ := changeSlots_cursor (vs.take k) s ha3
    exact ⟨t, ht, hr.1, by unfold MAX_INVENTORY_ITEMS; omega⟩
  · obtain ⟨s', hs', _, hv⟩ := changeSlots_cursor vs s ha3
    exact ⟨s', hs', hv⟩
  · intro v hv h3
    have hr := nextCursor_range v s.activeSlot ha3
    obtain ⟨t, _, ht, _, hta, _⟩ := ChangeActiveSlot_frame v s ⟨hr.1, by omega⟩
    refine ⟨t, ht, ?_⟩
    rw [hta]
    unfold nextCursor
    unfold MAX_INVENTORY_ITEMS at h3 ⊢
    split_ifs <;> omega
  · intro v hv h0
    have hr := nextCursor_range v s.activeSlot ha3
    obtain ⟨t, _, ht, _, hta, _⟩ := ChangeActiveSlot_frame v s ⟨hr.1, by omega⟩
    refine ⟨t, ht, ?_⟩
    rw [hta]
    unfold nextCursor
    unfold MAX_INVENTORY_ITEMS
    split_ifs <;> omega

/-- Witness of C4: six calls from slot 0, five forward and one backward, end on slot 0. -/
theorem changeSlots_activeSlot_witness :
    (0 ≤ exampleState.activeSlot ∧ exampleState.activeSlot ≤ MAX_INVENTORY_ITEMS - 1) ∧
    ∃ s', changeSlots [1, 1, -1, 1, 1, 1] exampleState = some s' ∧
      s'.activeSlot = (exampleState.activeSlot + (5 : Nat) - (1 : Nat)) % MAX_INVENTORY_ITEMS :=
  ⟨by decide, (changeSlots_activeSlot exampleState [1, 1, -1, 1, 1, 1] (by decide)).2.1⟩

/-! ## C5: `IsInventorySlotEmpty` -/

theorem IsInventorySlotEmpty_eval (slot : Int) (s : State) :
    (IsInventorySlotEmpty slot s).1 =
      if s.StaticInventory 0 = none then (true, 0)
      else if s.StaticInventory 1 = none then (true, 1)
      else if s.StaticInventory 2 = none then (true, 2)
      else if s.StaticInventory 3 = none then (true, 3)
      else (false, slot) := by
  simp only [IsInventorySlotEmpty, loopIndices, List.foldl]
  cases e0 : s.StaticInventory 0 <;> cases e1 : s.StaticInventory 1 <;>
    cases e2 : s.StaticInventory 2 <;> cases e3 : s.StaticInventory 3 <;> (simp; try rfl)

/-- C5. `IsInventorySlotEmpty` leaves the character as it is; when some index in `[0, 3]` holds
no item it returns `true` and stores the lowest such index in its argument; when the four slots
are occupied it returns `false` and leaves the argument as it was. -/
theorem IsInventorySlotEmpty_lowest (slot : Int) (s : State) :
    (IsInventorySlotEmpty slot s).2 = s ∧
    (∀ i : Fin 9, i.val < 4 → s.StaticInventory i = none →
      (∀ j : Fin 9, j < i → s.StaticInventory j ≠ none) →
      (IsInventorySlotEmpty slot s).1 = (true, (i.val : Int))) ∧
    ((∀ i : Fin 9, i.val < 4 → s.StaticInventory i ≠ none) →
      (IsInventorySlotEmpty slot s).1 = (false, slot)) := by
  refine ⟨rfl, ?_, ?_⟩
  · intro i hi hnone hlow
    rw [IsInventorySlotEmpty_eval]
    have hcases : i = 0 ∨ i = 1 ∨ i = 2 ∨ i = 3 := by
      rcases i with ⟨n, hn⟩
      simp only [Fin.ext_iff]
      simp only at hi
      change n = 0 ∨ n = 1 ∨ n = 2 ∨ n = 3
      omega
    rcases hcases with h | h | h | h <;> subst h
    · rw [if_pos hnone]; rfl
    · rw [if_neg (hlow 0 (by decide)), if_pos hnone]; rfl
    · rw [if_neg (hlow 0 (by decide)), if_neg (hlow 1 (by decide)), if_pos hnone]; rfl
    · rw [if_neg (hlow 0 (by decide)), if_neg (hlow 1 (by decide)),
        if_neg (hlow 2 (by decide)), if_pos hnone]; rfl
  · intro hall
    rw [IsInventorySlotEmpty_eval, if_neg (hall 0 (by decide)), if_neg (hall 1 (by decide)),
      if_neg (hall 2 (by decide)), if_neg (hall 3 (by decide))]

/-- Witness of C5: in the example state the lowest empty slot is 1 (slot 0 is occupied), and in
the full state the argument `7` comes back untouched. -/
theorem IsInventorySlotEmpty_lowest_witness :
    (exampleState.StaticInventory 1 = none ∧
      (∀ j : Fin 9, j < 1 → exampleState.StaticInventory j ≠ none) ∧
      (IsInventorySlotEmpty 7 exampleState).1 = (true, 1)) ∧
    ((∀ i : Fin 9, i.val < 4 → fullState.StaticInventory i ≠ none) ∧
      (IsInventorySlotEmpty 7 fullState).1 = (false, 7)) :=
  ⟨⟨by decide, by decide,
      (IsInventorySlotEmpty_lowest 7 exampleState).2.1 1 (by decide) (by decide) (by decide)⟩,
    ⟨by decide, (IsInventorySlotEmpty_lowest 7 fullState).2.2 (by decide)⟩⟩

/-! ## C6: the empty-slot cases of `Use`, `Drop` and `ItemInfo` -/

/-- C6. When the active slot is empty, `Use`, `ItemInfo` and `Drop` each return the state they
were given with exactly one red on-screen message appended ("You don't have any active item!"
for `Use` and `ItemInfo`, "There is nothing here..." for `Drop`): the slots, the active slot, the
equipped item, the pick-up flag and the item actors are as before, and the log of calls on items
has no new entry. -/
theorem empty_slot_only_notifies (B : ItemBehaviour) (s : State)
    (h : s.slot s.activeSlot = some none) :
    Use B s = some { s with
      screen := s.screen ++ [⟨-1, 5, FColor.Red, "You don't have any active item!"⟩] } ∧
    ItemInfo B s = some { s with
      screen := s.screen ++ [⟨-1, 5, FColor.Red, "You don't have any active item!"⟩] } ∧
    Drop s = some { s with
      screen := s.screen ++ [⟨-1, 5, FColor.Red, "There is nothing here..."⟩] } := by
  refine ⟨?_, ?_, ?_⟩
  · simp only [Use, h]; rfl
  · simp only [ItemInfo, h]; rfl
  · simp only [Drop, h]; rfl

/-- Witness of C6: the example state with the cursor on the empty slot 1. -/
theorem empty_slot_only_notifies_witness :
    emptySlotState.slot emptySlotState.activeSlot = some none ∧
    Use idleBehaviour emptySlotState = some { emptySlotState with
      screen := emptySlotState.screen ++
        [⟨-1, 5, FColor.Red, "You don't have any active item!"⟩] } :=
  ⟨by decide, (empty_slot_only_notifies idleBehaviour emptySlotState (by decide)).1⟩

/-! ## C7: `Use` on an occupied slot -/

/-- C7. When the active slot holds an item `x`, `Use` returns; it makes exactly one call on an
item, `x->Use()`, emits no on-screen message, and leaves the active slot empty, every other slot
and the active slot index being as before. -/
theorem Use_occupied (B : ItemBehaviour) (s : State) (x : Item)
    (h : s.slot s.activeSlot = some (some x)) :
    ∃ s', Use B s = some s' ∧
      s'.calls = s.calls ++ [ItemCall.Use x] ∧
      s'.actors = B.Use x s.actors ∧
      s'.screen = s.screen ∧
      s'.slot s'.activeSlot = some none ∧
      (∀ j : Fin 9, (j.val : Int) ≠ s.activeSlot → s'.StaticInventory j = s.StaticInventory j) ∧
      s'.activeSlot = s.activeSlot := by
  obtain ⟨hi, _⟩ := slot_eq_some s _ _ h
  have hU : Use B s = (s.callUse B x).setSlot s.activeSlot none := by simp only [Use, h]
  rw [hU, setSlot_eq _ _ _ hi]
  refine ⟨_, rfl, rfl, rfl, rfl, ?_, ?_, rfl⟩
  · simp [State.slot, State.callUse, hi]
  · intro j hj
    have hne : j ≠ ⟨s.activeSlot.toNat, by omega⟩ := by
      intro hc
      apply hj
      rw [hc]
      simp only [State.callUse]
      omega
    simp [State.callUse, hne]

/-- Witness of C7: in the example state the cursor is on slot 0, which holds the item `A`. -/
theorem Use_occupied_witness :
    exampleState.slot exampleState.activeSlot = some (some itemA) ∧
    ∃ s', Use idleBehaviour exampleState = some s' ∧
      s'.calls = exampleState.calls ++ [ItemCall.Use itemA] ∧
      s'.actors = idleBehaviour.Use itemA exampleState.actors ∧
      s'.screen = exampleState.screen ∧
      s'.slot s'.activeSlot = some none ∧
      (∀ j : Fin 9, (j.val : Int) ≠ exampleState.activeSlot →
        s'.StaticInventory j = exampleState.StaticInventory j) ∧
      s'.activeSlot = exampleState.activeSlot :=
  ⟨by decide, Use_occupied idleBehaviour exampleState itemA (by decide)⟩

/-! ## C8: `ShowInventory` -/

theorem ShowInventory_loop (l : List (Fin 9)) :
    ∀ t : State,
      l.foldl
        (fun (t : State) (i : Fin 9) =>
          match t.StaticInventory i with
          | some it => t.AddOnScreenDebugMessage (-1) 5 FColor.Blue ("Item: " ++ it.name)
          | none => t.AddOnScreenDebugMessage (-1) 5 FColor.Blue "Item: None") t =
      { t with
        screen := t.screen ++
          l.map (fun i =>
            (⟨-1, 5, FColor.Blue,
              match t.StaticInventory i with
              | some it => "Item: " ++ it.name
              | none => "Item: None"⟩ : ScreenMessage)) } := by
  induction l with
  | nil => intro t; simp
  | cons i l ih =>
    intro t
    rw [List.foldl_cons, ih]
    cases e : t.StaticInventory i <;>
      simp [State.AddOnScreenDebugMessage, e, List.append_assoc]

/-- C8. `ShowInventory` changes nothing but the on-screen log (slots, active slot, equipped
item, pick-up flag, item actors and calls are as before); it appends one blue line per slot in
slot order 0..3, "Item: " followed by the name of the slot's item, or "Item: None" for an empty
slot, and then the heading line "INVENTORY". -/
theorem ShowInventory_lines (s : State) :
    ShowInventory s = { s with
      screen := s.screen ++
        [0, 1, 2, 3].map (fun (i : Fin 9) =>
          (⟨-1, 5, FColor.Blue,
            match s.StaticInventory i with
            | some it => "Item: " ++ it.name
            | none => "Item: None"⟩ : ScreenMessage)) ++
        [⟨-1, 5, FColor.Blue, "INVENTORY"⟩] } := by
  unfold ShowInventory
  rw [ShowInventory_loop]
  rfl

/-! ## C9: what the equip block does to the items -/

theorem updateActor_same (w : World) (it : Item) (f : ActorState → ActorState) :
    updateActor w it f it = f (w it) := by
  simp [updateActor]

theorem updateActor_other (w : World) (it x : Item) (f : ActorState → ActorState) (h : x ≠ it) :
    updateActor w it f x = w x := by
  simp [updateActor, h]

/-- C9. Let `t` be the state after the cursor update of `ChangeActiveSlot Value s` and `cur` the
content of its active slot. Then `ChangeActiveSlot` returns, and:
if `cur` is a weapon-type item `W`, the calls made on items are, in this order, `DisableActor(true)`
and `DetachFromActor` on the previously equipped item (if any), then `AttachToComponent` at
`socketWeapon`, `DisableActor(false)` and `SetSimulatePhysics(false)` on `W`; afterwards `W` is
the equipped item, attached, enabled and not simulating physics (also when it was equipped
before), and a previously equipped item other than `W` is detached and disabled;
if `cur` is empty or not a weapon, the only calls are `DisableActor(true)` and `DetachFromActor`
on the previously equipped item (if any), which ends detached and disabled, and the equipped
reference is empty. -/
theorem ChangeActiveSlot_equip_effects (Value : Int) (s t : State) (cur : Option Item)
    (hm : moveCursor Value s = some t) (hc : t.slot t.activeSlot = some cur) :
    ∃ s', ChangeActiveSlot Value s = some s' ∧
      (∀ W, cur = some W → W.isWeapon = true →
        s'.calls = s.calls ++
          (match s.equippedItem with
            | some e => [ItemCall.DisableActor e true, ItemCall.DetachFromActor e]
            | none => []) ++
          [ItemCall.AttachToComponent W "socketWeapon", ItemCall.DisableActor W false,
            ItemCall.SetSimulatePhysics W false] ∧
        s'.equippedItem = some W ∧
        (s'.actors W).attachedTo = some "socketWeapon" ∧
        (s'.actors W).disabled = false ∧
        (s'.actors W).simulatePhysics = false ∧
        ∀ e, s.equippedItem = some e → e ≠ W →
          (s'.actors e).attachedTo = none ∧ (s'.actors e).disabled = true) ∧
      ((∀ W, cur = some W → W.isWeapon = false) →
        s'.equippedItem = none ∧
        s'.calls = s.calls ++
          (match s.equippedItem with
            | some e => [ItemCall.DisableActor e true, ItemCall.DetachFromActor e]
            | none => []) ∧
        ∀ e, s.equippedItem = some e →
          (s'.actors e).attachedTo = none ∧ (s'.actors e).disabled = true) := by
  obtain ⟨msgs, ht⟩ := moveCursor_some Value s t hm
  have hte : t.equippedItem = s.equippedItem := by rw [ht]
  have htc : t.calls = s.calls := by rw [ht]
  obtain ⟨s', hs', _⟩ := equipActiveSlot_frame t cur hc
  refine ⟨s', by simp [ChangeActiveSlot, hm, hs'], ?_, ?_⟩
  · intro W hW hw
    have hcast : Cast_AWeaponItem cur = some W := (Cast_AWeaponItem_eq_some cur W).2 ⟨hW, hw⟩
    simp only [equipActiveSlot, hc, hcast] at hs'
    rw [← hte, ← htc]
    cases he : t.equippedItem with
    | none =>
      rw [he] at hs'
      have hs'' := (Option.some.inj hs').symm
      subst hs''
      simp [State.AttachToComponent, State.DisableActor, State.SetSimulatePhysics, hW,
        updateActor_same]
    | some e =>
      rw [he] at hs'
      have hs'' := (Option.some.inj hs').symm
      subst hs''
      simp only [State.AttachToComponent, State.DisableActor, State.SetSimulatePhysics,
        State.DetachFromActor, hW, updateActor_same, List.append_assoc, List.cons_append,
        List.nil_append, true_and, Option.some.injEq]
      intro e' he' hne
      subst he'
      simp [updateActor_other _ _ _ _ hne, updateActor_same]
  · intro hnw
    have hcast : Cast_AWeaponItem cur = none := (Cast_AWeaponItem_eq_none cur).2 hnw
    simp only [equipActiveSlot, hc, hcast] at hs'
    rw [← hte, ← htc]
    cases he : t.equippedItem with
    | none =>
      rw [he] at hs'
      have hs'' := (Option.some.inj hs').symm
      subst hs''
      simp [he]
    | some e =>
      rw [he] at hs'
      have hs'' := (Option.some.inj hs').symm
      subst hs''
      simp [State.DisableActor, State.DetachFromActor, updateActor_same]

/-- Witness of C9: one step forward from slot 1 lands on the weapon `W` in slot 2, which gets
equipped; one step forward from the armed state lands on the empty slot 3, and `W` is put away. -/
theorem ChangeActiveSlot_equip_effects_witness :
    (moveCursor 1 emptySlotState = some cursorOnWeapon ∧
      cursorOnWeapon.slot cursorOnWeapon.activeSlot = some (some itemW) ∧
      itemW.isWeapon = true ∧
      ∃ s', ChangeActiveSlot 1 emptySlotState = some s' ∧
        s'.equippedItem = some itemW ∧
        (s'.actors itemW).attachedTo = some "socketWeapon" ∧
        (s'.actors itemW).disabled = false ∧
        (s'.actors itemW).simulatePhysics = false) ∧
    (moveCursor 1 armedState = some cursorPastWeapon ∧
      cursorPastWeapon.slot cursorPastWeapon.activeSlot = some none ∧
      ∃ s', ChangeActiveSlot 1 armedState = some s' ∧
        s'.equippedItem = none ∧
        (s'.actors itemW).attachedTo = none ∧ (s'.actors itemW).disabled = true) := by
  have h1 : moveCursor 1 emptySlotState = some cursorOnWeapon := by rfl
  have h2 : cursorOnWeapon.slot cursorOnWeapon.activeSlot = some (some itemW) := by decide
  have h3 : moveCursor 1 armedState = some cursorPastWeapon := by rfl
  have h4 : cursorPastWeapon.slot cursorPastWeapon.activeSlot = some none := by decide
  refine ⟨⟨h1, h2, rfl, ?_⟩, ⟨h3, h4, ?_⟩⟩
  · obtain ⟨s', hs', hw, _⟩ :=
      ChangeActiveSlot_equip_effects 1 emptySlotState cursorOnWeapon (some itemW) h1 h2
    obtain ⟨_, he, ha, hd, hp, _⟩ := hw itemW rfl rfl
    exact ⟨s', hs', he, ha, hd, hp⟩
  · obtain ⟨s', hs', _, hn⟩ :=
      ChangeActiveSlot_equip_effects 1 armedState cursorPastWeapon none h3 h4
    obtain ⟨he, _, ha⟩ := hn (by intro W hW; cases hW)
    exact ⟨s', hs', he, ha itemW rfl⟩

/-! ## C10: only the equipped item is attached -/

theorem equipActiveSlot_attach (t : State) (cur : Option Item)
    (hc : t.slot t.activeSlot = some cur) (hinv : AttachInv t) :
    ∃ t', equipActiveSlot t = some t' ∧ AttachInv t' ∧ t'.activeSlot = t.activeSlot := by
  unfold equipActiveSlot
  simp only [hc]
  cases hcast : Cast_AWeaponItem cur with
  | some w =>
    have hcw := (Cast_AWeaponItem_eq_some cur w).1 hcast
    cases he : t.equippedItem with
    | none =>
      refine ⟨_, rfl, ?_, rfl⟩
      intro it
      have hit := hinv it
      rw [he] at hit
      by_cases h1 : it = w
      · subst h1
        simp [State.AttachToComponent, State.DisableActor, State.SetSimulatePhysics,
          updateActor_same, hcw.1]
      · simp only [State.AttachToComponent, State.DisableActor, State.SetSimulatePhysics,
          updateActor_other _ _ _ _ h1, hcw.1]
        constructor
        · intro h; exact absurd (hit.1 h) (by simp)
        · intro h; exact absurd (Option.some.inj h).symm h1
    | some e =>
      refine ⟨_, rfl, ?_, rfl⟩
      intro it
      have hit := hinv it
      rw [he] at hit
      by_cases h1 : it = w
      · subst h1
        simp [State.AttachToComponent, State.DisableActor, State.SetSimulatePhysics,
          updateActor_same, hcw.1]
      · simp only [State.AttachToComponent, State.DisableActor, State.SetSimulatePhysics,
          State.DetachFromActor, updateActor_other _ _ _ _ h1, hcw.1]
        constructor
        · intro h
          by_cases h2 : it = e
          · subst h2
            simp [updateActor_same] at h
          · simp only [updateActor_other _ _ _ _ h2] at h
            exact absurd (Option.some.inj (hit.1 h)).symm h2
        · intro h; exact absurd (Option.some.inj h).symm h1
  | none =>
    cases he : t.equippedItem with
    | none => exact ⟨t, rfl, hinv, rfl⟩
    | some e =>
      refine ⟨_, rfl, ?_, rfl⟩
      intro it
      have hit := hinv it
      rw [he] at hit
      simp only [State.DisableActor, State.DetachFromActor]
      constructor
      · intro h
        by_cases h2 : it = e
        · subst h2
          simp [updateActor_same] at h
        · simp only [updateActor_other _ _ _ _ h2] at h
          exact absurd (Option.some.inj (hit.1 h)).symm h2
      · intro h; exact absurd h (by simp)

theorem ChangeActiveSlot_attach (Value : Int) (s : State)
    (ha : 0 ≤ s.activeSlot ∧ s.activeSlot ≤ 3) (hinv : AttachInv s) :
    ∃ s', ChangeActiveSlot Value s = some s' ∧ AttachInv s' ∧
      (0 ≤ s'.activeSlot ∧ s'.activeSlot ≤ 3) := by
  have hr := nextCursor_range Value s.activeSlot ha
  obtain ⟨msgs, hm⟩ := moveCursor_eq Value s (fun _ => ⟨hr.1, by omega⟩)
  generalize hu : ({ s with activeSlot := nextCursor Value s.activeSlot, screen := s.screen ++ msgs } : State) = u at hm
  have hua : u.activeSlot = nextCursor Value s.activeSlot := by rw [← hu]
  have huinv : AttachInv u := by rw [← hu]; exact hinv
  have hslot : ∃ cur, u.slot u.activeSlot = some cur := by
    simp only [State.slot, hua]
    rw [dif_pos ⟨hr.1, by omega⟩]
    exact ⟨_, rfl⟩
  obtain ⟨cur, hcur⟩ := hslot
  obtain ⟨t', ht', hinv', hact⟩ := equipActiveSlot_attach u cur hcur huinv
  refine ⟨t', by simp [ChangeActiveSlot, hm, ht'], hinv', ?_⟩
  rw [hact, hua]
  exact hr

theorem Drop_attach (s : State) (ha : 0 ≤ s.activeSlot ∧ s.activeSlot ≤ 3) (hinv : AttachInv s) :
    ∃ s', Drop s = some s' ∧ AttachInv s' ∧ s'.activeSlot = s.activeSlot := by
  have hi : 0 ≤ s.activeSlot ∧ s.activeSlot < 9 := ⟨ha.1, by omega⟩
  unfold Drop
  have hslot : s.slot s.activeSlot = some (s.StaticInventory ⟨s.activeSlot.toNat, by omega⟩) := by
    simp [State.slot, hi]
  simp only [hslot]
  cases hcur : s.StaticInventory ⟨s.activeSlot.toNat, by omega⟩ with
  | none => exact ⟨_, rfl, hinv, rfl⟩
  | some it =>
    refine ⟨_, setSlot_eq _ _ _ hi, ?_, rfl⟩
    intro x
    have hx := hinv x
    simp only [State.DisableActor, State.SetActorLocation]
    by_cases h1 : x = it
    · subst h1
      simpa [updateActor_same] using hx
    · simpa [updateActor_other _ _ _ _ h1] using hx

theorem Use_attach (B : ItemBehaviour)
    (hUse : ∀ it w x, (B.Use it w x).attachedTo = (w x).attachedTo)
    (s : State) (ha : 0 ≤ s.activeSlot ∧ s.activeSlot ≤ 3) (hinv : AttachInv s) :
    ∃ s', Use B s = some s' ∧ AttachInv s' ∧ s'.activeSlot = s.activeSlot := by
  have hi : 0 ≤ s.activeSlot ∧ s.activeSlot < 9 := ⟨ha.1, by omega⟩
  unfold Use
  have hslot : s.slot s.activeSlot = some (s.StaticInventory ⟨s.activeSlot.toNat, by omega⟩) := by
    simp [State.slot, hi]
  simp only [hslot]
  cases hcur : s.StaticInventory ⟨s.activeSlot.toNat, by omega⟩ with
  | none => exact ⟨_, rfl, hinv, rfl⟩
  | some it =>
    refine ⟨_, setSlot_eq _ _ _ hi, ?_, rfl⟩
    intro x
    have hx := hinv x
    simp only [State.callUse, hUse]
    exact hx

theorem ItemInfo_attach (B : ItemBehaviour)
    (hInfo : ∀ it w x, (B.Info it w x).attachedTo = (w x).attachedTo)
    (s : State) (ha : 0 ≤ s.activeSlot ∧ s.activeSlot ≤ 3) (hinv : AttachInv s) :
    ∃ s', ItemInfo B s = some s' ∧ AttachInv s' ∧ s'.activeSlot = s.activeSlot := by
  have hi : 0 ≤ s.activeSlot ∧ s.activeSlot < 9 := ⟨ha.1, by omega⟩
  unfold ItemInfo
  have hslot : s.slot s.activeSlot = some (s.StaticInventory ⟨s.activeSlot.toNat, by omega⟩) := by
    simp [State.slot, hi]
  simp only [hslot]
  cases hcur : s.StaticInventory ⟨s.activeSlot.toNat, by omega⟩ with
  | none => exact ⟨_, rfl, hinv, rfl⟩
  | some it =>
    refine ⟨_, rfl, ?_, rfl⟩
    intro x
    have hx := hinv x
    simp only [State.callInfo, hInfo]
    exact hx

theorem step_attach (B : ItemBehaviour)
    (hUse : ∀ it w x, (B.Use it w x).attachedTo = (w x).attachedTo)
    (hInfo : ∀ it w x, (B.Info it w x).attachedTo = (w x).attachedTo)
    (op : Op) (s : State) (ha : 0 ≤ s.activeSlot ∧ s.activeSlot ≤ 3) (hinv : AttachInv s) :
    ∃ s', step B op s = some s' ∧ AttachInv s' ∧ (0 ≤ s'.activeSlot ∧ s'.activeSlot ≤ 3) := by
  cases op with
  | ChangeActiveSlot v => exact ChangeActiveSlot_attach v s ha hinv
  | Drop =>
    obtain ⟨s', h1, h2, h3⟩ := Drop_attach s ha hinv
    exact ⟨s', h1, h2, by rw [h3]; exact ha⟩
  | Use =>
    obtain ⟨s', h1, h2, h3⟩ := Use_attach B hUse s ha hinv
    exact ⟨s', h1, h2, by rw [h3]; exact ha⟩
  | ItemInfo =>
    obtain ⟨s', h1, h2, h3⟩ := ItemInfo_attach B hInfo s ha hinv
    exact ⟨s', h1, h2, by rw [h3]; exact ha⟩
  | ShowInventory =>
    refine ⟨ShowInventory s, rfl, ?_, ?_⟩
    · unfold ShowInventory
      rw [ShowInventory_loop]
      exact hinv
    · unfold ShowInventory
      rw [ShowInventory_loop]
      exact ha
  | BeginPickup => exact ⟨BeginPickup s, rfl, hinv, ha⟩
  | EndPickup => exact ⟨EndPickup s, rfl, hinv, ha⟩

theorem run_attach (B : ItemBehaviour)
    (hUse : ∀ it w x, (B.Use it w x).attachedTo = (w x).attachedTo)
    (hInfo : ∀ it w x, (B.Info it w x).attachedTo = (w x).attachedTo)
    (ops : List Op) :
    ∀ s : State, 0 ≤ s.activeSlot ∧ s.activeSlot ≤ 3 → AttachInv s →
      ∃ s', run B ops s = some s' ∧ AttachInv s' := by
  induction ops with
  | nil => intro s _ hinv; exact ⟨s, rfl, hinv⟩
  | cons op ops ih =>
    intro s ha hinv
    obtain ⟨t, ht, hinvt, hat⟩ := step_attach B hUse hInfo op s ha hinv
    obtain ⟨s', hs', hinv'⟩ := ih t hat hinvt
    exact ⟨s', by simp [run, ht, hs'], hinv'⟩

/-- C10. Let the item behaviours `Use()` and `Info()` leave every attachment as it is. Start
from a state in which no item is attached to the character and nothing is equipped, the cursor
being in `[0, 3]` (the slots may hold anything; the constructed character, with all slots empty,
is one such state). Then every sequence of `ChangeActiveSlot`, `Drop`, `Use`, `ItemInfo`,
`ShowInventory`, `BeginPickup` and `EndPickup` calls runs to a state in which an item is attached
exactly when it is the equipped item: nothing is attached when the equipped reference is empty,
and at most one item is attached at any time. -/
theorem attached_iff_equipped (B : ItemBehaviour)
    (hUse : ∀ it w x, (B.Use it w x).attachedTo = (w x).attachedTo)
    (hInfo : ∀ it w x, (B.Info it w x).attachedTo = (w x).attachedTo)
    (s0 : State) (h0 : ∀ it, (s0.actors it).attachedTo = none) (he : s0.equippedItem = none)
    (ha : 0 ≤ s0.activeSlot ∧ s0.activeSlot ≤ 3) (ops : List Op) :
    ∃ s, run B ops s0 = some s ∧
      (∀ it, (s.actors it).attachedTo ≠ none ↔ s.equippedItem = some it) ∧
      (s.equippedItem = none → ∀ it, (s.actors it).attachedTo = none) ∧
      (∀ a b, (s.actors a).attachedTo ≠ none → (s.actors b).attachedTo ≠ none → a = b) := by
  have hinv0 : AttachInv s0 := by
    intro it
    rw [h0 it, he]
    simp
  obtain ⟨s, hs, hinv⟩ := run_attach B hUse hInfo ops s0 ha hinv0
  refine ⟨s, hs, hinv, ?_, ?_⟩
  · intro hn it
    by_contra hc
    have := (hinv it).1 hc
    rw [hn] at this
    exact absurd this (by simp)
  · intro a b hA hB
    have h1 := (hinv a).1 hA
    have h2 := (hinv b).1 hB
    rw [h1] at h2
    exact Option.some.inj h2

/-- Witness of C10: from the example state, with behaviours that do nothing, a run through all
seven handlers. -/
theorem attached_iff_equipped_witness :
    (∀ it w x, (idleBehaviour.Use it w x).attachedTo = (w x).attachedTo) ∧
    (∀ it w x, (idleBehaviour.Info it w x).attachedTo = (w x).attachedTo) ∧
    (∀ it, (exampleState.actors it).attachedTo = none) ∧
    exampleState.equippedItem = none ∧
    (0 ≤ exampleState.activeSlot ∧ exampleState.activeSlot ≤ 3) ∧
    ∃ s, run idleBehaviour
        [Op.ChangeActiveSlot 1, Op.ChangeActiveSlot 1, Op.ItemInfo, Op.Drop, Op.ShowInventory,
          Op.BeginPickup, Op.ChangeActiveSlot (-1), Op.EndPickup, Op.ChangeActiveSlot (-1), Op.Use]
        exampleState = some s ∧
      (∀ it, (s.actors it).attachedTo ≠ none ↔ s.equippedItem = some it) ∧
      (s.equippedItem = none → ∀ it, (s.actors it).attachedTo = none) ∧
      (∀ a b, (s.actors a).attachedTo ≠ none → (s.actors b).attachedTo ≠ none → a = b) :=
  ⟨fun _ _ _ => rfl, fun _ _ _ => rfl, fun _ => rfl, rfl, by decide,
    attached_iff_equipped idleBehaviour (fun _ _ _ => rfl) (fun _ _ _ => rfl) exampleState
      (fun _ => rfl) rfl (by decide) _⟩

/-! ## C2 and C3: `Drop` and `Use` leave the equipped reference behind -/

theorem Drop_occupied (s : State) (x : Item) (h : s.slot s.activeSlot = some (some x)) :
    ∃ s', Drop s = some s' ∧ s'.slot s'.activeSlot = some none ∧
      s'.equippedItem = s.equippedItem ∧
      (s'.actors x).attachedTo = (s.actors x).attachedTo := by
  obtain ⟨hi, _⟩ := slot_eq_some s _ _ h
  have hD : Drop s =
      ((s.DisableActor x false).SetActorLocation x
        ((s.ActorLocation.add (s.ActorForwardVector.scale 150)).add ⟨0, 0, 50⟩)).setSlot
        s.activeSlot none := by
    simp only [Drop, h]
  rw [hD, setSlot_eq _ _ _ hi]
  refine ⟨_, rfl, ?_, rfl, ?_⟩
  · simp [State.slot, State.DisableActor, State.SetActorLocation, hi]
  · simp [State.DisableActor, State.SetActorLocation, updateActor_same]

theorem EquipInv_initialState (w : World) (loc fwd : FVector) :
    EquipInv (initialState w loc fwd) :=
  Or.inl rfl

theorem EquipInv_ChangeActiveSlot (Value : Int) (s : State)
    (h : 0 ≤ s.activeSlot ∧ s.activeSlot ≤ 3) :
    ∃ s', ChangeActiveSlot Value s = some s' ∧ EquipInv s' := by
  have hr := nextCursor_range Value s.activeSlot h
  obtain ⟨s', cur, hs', _, _, _, hslot, heq⟩ :=
    ChangeActiveSlot_frame Value s ⟨hr.1, by omega⟩
  refine ⟨s', hs', ?_⟩
  cases hc : Cast_AWeaponItem cur with
  | none => exact Or.inl (heq.trans hc)
  | some w =>
    have hcw := (Cast_AWeaponItem_eq_some cur w).1 hc
    exact Or.inr ⟨w, heq.trans hc, by rw [hslot, hcw.1], hcw.2⟩

theorem EquipInv_ItemInfo (B : ItemBehaviour) (s : State)
    (h : 0 ≤ s.activeSlot ∧ s.activeSlot < 9) (hinv : EquipInv s) :
    ∃ s', ItemInfo B s = some s' ∧ EquipInv s' := by
  unfold ItemInfo
  have hslot : s.slot s.activeSlot = some (s.StaticInventory ⟨s.activeSlot.toNat, by omega⟩) := by
    simp [State.slot, h]
  simp only [hslot]
  cases hcur : s.StaticInventory ⟨s.activeSlot.toNat, by omega⟩ with
  | none => exact ⟨_, rfl, hinv⟩
  | some it => exact ⟨_, rfl, hinv⟩

theorem EquipInv_ShowInventory (s : State) (hinv : EquipInv s) : EquipInv (ShowInventory s) := by
  unfold ShowInventory
  rw [ShowInventory_loop]
  exact hinv

theorem EquipInv_BeginPickup (s : State) (hinv : EquipInv s) : EquipInv (BeginPickup s) := hinv

theorem EquipInv_EndPickup (s : State) (hinv : EquipInv s) : EquipInv (EndPickup s) := hinv

/-- C2, evaluated on the spec's example. From slots `[A, empty, W, empty]` with the cursor on
slot 0, two calls `ChangeActiveSlot(+1)` reach slot 1 with nothing equipped and then slot 2 with
`W` equipped; the following `Drop` empties slot 2 but leaves `equippedItem` pointing to `W`, and
`W` still attached to the weapon socket. The reference is only cleared by the next
`ChangeActiveSlot` (here with value 0), which also disables the item that was dropped. -/
theorem Drop_keeps_equipped_reference :
    ∃ s1 s2 s3 s4,
      ChangeActiveSlot 1 exampleState = some s1 ∧ s1.activeSlot = 1 ∧ s1.equippedItem = none ∧
      ChangeActiveSlot 1 s1 = some s2 ∧ s2.activeSlot = 2 ∧ s2.equippedItem = some itemW ∧
      Drop s2 = some s3 ∧ s3.StaticInventory 2 = none ∧ s3.equippedItem = some itemW ∧
      (s3.actors itemW).attachedTo = some "socketWeapon" ∧
      ChangeActiveSlot 0 s3 = some s4 ∧ s4.equippedItem = none ∧
      (s4.actors itemW).disabled = true :=
  ⟨_, _, _, _, rfl, rfl, rfl, rfl, rfl, rfl, rfl, rfl, rfl, rfl, rfl, rfl, rfl⟩

/-- C3, evaluated on a state that satisfies the predicate. With slots `[A, empty, W, empty]`, the
cursor on slot 2 and `W` equipped, the equipped item is the weapon in the active slot; after
`Drop`, and likewise after `Use`, the active slot is empty while `equippedItem` still points to
`W`, so the predicate no longer holds. -/
theorem EquipInv_lost_by_Drop_and_Use :
    EquipInv armedState ∧
    (∃ s', Drop armedState = some s' ∧ ¬ EquipInv s') ∧
    (∃ s', Use idleBehaviour armedState = some s' ∧ ¬ EquipInv s') := by
  have hD : ∃ s', Drop armedState = some s' ∧ s'.equippedItem = some itemW ∧
      s'.slot s'.activeSlot = some none := ⟨_, rfl, rfl, by decide⟩
  have hU : ∃ s', Use idleBehaviour armedState = some s' ∧ s'.equippedItem = some itemW ∧
      s'.slot s'.activeSlot = some none := ⟨_, rfl, rfl, by decide⟩
  obtain ⟨d, hd1, hd2, hd3⟩ := hD
  obtain ⟨u, hu1, hu2, hu3⟩ := hU
  refine ⟨Or.inr ⟨itemW, rfl, by decide, rfl⟩, ⟨d, hd1, ?_⟩, ⟨u, hu1, ?_⟩⟩
  · rintro (h | ⟨w, _, hs, _⟩)
    · rw [hd2] at h; cases h
    · rw [hd3] at hs; cases hs
  · rintro (h | ⟨w, _, hs, _⟩)
    · rw [hu2] at h; cases h
    · rw [hu3] at hs; cases hs

end APangeaMechanicsCharacter
